import Mathlib

set_option maxRecDepth 4000

namespace PictureBook

/-!
Shallow embedding of the picture-book reader backend
(`src/api/analyze.py` and `src/api/synthesize.py`).

Python strings are modelled as `List Char`; Python dicts produced by
`json.loads` are modelled by the `Json` inductive below; fallible Python
code (code that may raise) is modelled with `Option`/`Except`.
-/

/-- Characters of a string literal.  Python strings are modelled throughout
as `List Char`. -/
def chars (s : String) : List Char := s.data

/-- ASCII decimal-digit test, used to reason about the characters produced
by decimal number printing. -/
def isDigitChar (c : Char) : Bool := 48 ≤ c.toNat && c.toNat ≤ 57

/-- The decimal digit character for a digit value; mirrors the digits
produced by Python `str(int)` and f-string interpolation. -/
def digitChar : Nat → Char
  | 0 => '0'
  | 1 => '1'
  | 2 => '2'
  | 3 => '3'
  | 4 => '4'
  | 5 => '5'
  | 6 => '6'
  | 7 => '7'
  | 8 => '8'
  | _ => '9'

/-- Fuelled worker for decimal printing (fuel makes the definition
structurally recursive, so concrete values reduce in the kernel). -/
def natCharsAux : Nat → Nat → List Char
  | 0, _ => []
  | fuel + 1, n =>
    if n < 10 then [digitChar n]
    else natCharsAux fuel (n / 10) ++ [digitChar (n % 10)]

/-- Decimal representation of a natural number, as Python `str(n)` /
f-string interpolation produces it. -/
def natChars (n : Nat) : List Char := natCharsAux (n + 1) n

/-- Bool test that the first list is an initial run of the second
(used to model Python substring search). -/
def leadsWith : List Char → List Char → Bool
  | a :: as, b :: bs => a = b && leadsWith as bs
  | needle, _ => needle.isEmpty

/-- Python `needle in hay` on strings: `needle` occurs contiguously
in `hay`. -/
def isSubstr (needle : List Char) : List Char → Bool
  | [] => needle.isEmpty
  | c :: rest => leadsWith needle (c :: rest) || isSubstr needle rest

/-- Python `str.find` restricted to a single-character needle: index of the
first occurrence, or failure. -/
def findChar : List Char → Char → Option Nat
  | [], _ => none
  | x :: rest, c => if x = c then some 0 else (findChar rest c).map (· + 1)

/-- Python `s.find(c)`: first index, or -1 when absent
(`src/api/analyze.py`, `content.find` at line 95). -/
def pyFind (s : List Char) (c : Char) : Int :=
  match findChar s c with
  | some i => (i : Int)
  | none => -1

/-- Python `s.rfind(c)`: last index, or -1 when absent
(`src/api/analyze.py`, `content.rfind` at line 96). -/
def pyRfind (s : List Char) (c : Char) : Int :=
  match findChar s.reverse c with
  | some i => ((s.length - 1 - i : Nat) : Int)
  | none => -1

/-- Python slice `s[a:b]` for the in-range indices this development uses. -/
def pySlice (s : List Char) (a b : Nat) : List Char := (s.take b).drop a

/-! ### JSON values

Model of the values produced by Python `json.loads`. -/

/-- A JSON value as produced by Python `json.loads`: strings, integers,
booleans, null, arrays, and objects (ordered field lists). -/
inductive Json where
  | str (s : List Char)
  | num (n : Int)
  | bool (b : Bool)
  | null
  | arr (elems : List Json)
  | obj (fields : List (List Char × Json))

/-! ### JSON parser

Model of Python `json.loads`, covering the fragment relevant to the
analysis payloads: strings with the common single-character escapes,
integers, `true`/`false`/`null`, arrays and objects.  The top level
requires the whole input (modulo surrounding whitespace) to be one value,
as `json.loads` does. -/

/-- Skip the JSON whitespace characters `json.loads` skips. -/
def skipWs : List Char → List Char
  | [] => []
  | c :: rest =>
    if c = ' ' ∨ c = '\t' ∨ c = '\n' ∨ c = '\r' then skipWs rest else c :: rest

/-- Escape table: each JSON escape letter paired with the character it
denotes. -/
def escTable : List (Char × Char) :=
  [ ('"', '"'), ('\\', '\\'), ('/', '/'), ('n', '\n')
  , ('t', '\t'), ('r', '\r'), ('b', Char.ofNat 8), ('f', Char.ofNat 12) ]

/-- Translation of a JSON escape character via the table. -/
def escChar (e : Char) : Option Char :=
  (escTable.find? (fun p => p.1 = e)).map (fun p => p.2)

/-- Parse the body of a JSON string after the opening quote; returns the
decoded content and the rest of the input after the closing quote. -/
def parseStrChars : List Char → Option (List Char × List Char)
  | [] => none
  | '"' :: rest => some ([], rest)
  | '\\' :: e :: rest =>
    match escChar e with
    | some c =>
      match parseStrChars rest with
      | some (s, r) => some (c :: s, r)
      | none => none
    | none => none
  | c :: rest =>
    match parseStrChars rest with
    | some (s, r) => some (c :: s, r)
    | none => none

/-- Greedily take decimal digits from the front of the input. -/
def takeDigits : List Char → List Char × List Char
  | [] => ([], [])
  | c :: rest =>
    if isDigitChar c then
      match takeDigits rest with
      | (ds, r) => (c :: ds, r)
    else ([], c :: rest)

/-- Numeric value of a digit character. -/
def digitVal (c : Char) : Nat := c.toNat - 48

/-- Value of a run of decimal digits. -/
def digitsVal (ds : List Char) : Nat := ds.foldl (fun a c => 10 * a + digitVal c) 0

/-- Parse a JSON integer (optional leading minus). -/
def parseNum : List Char → Option (Json × List Char)
  | '-' :: rest =>
    match takeDigits rest with
    | ([], _) => none
    | (ds, r) => some (Json.num (-(digitsVal ds : Int)), r)
  | input =>
    match takeDigits input with
    | ([], _) => none
    | (ds, r) => some (Json.num (digitsVal ds), r)

mutual

/-- Parse one JSON value; fuel bounds nesting depth. -/
def parseVal : Nat → List Char → Option (Json × List Char)
  | 0, _ => none
  | fuel + 1, input =>
    match skipWs input with
    | '"' :: rest =>
      match parseStrChars rest with
      | some (s, r) => some (Json.str s, r)
      | none => none
    | '{' :: rest =>
      (match skipWs rest with
       | '}' :: r2 => some (Json.obj [], r2)
       | other =>
         match parseMembers fuel other with
         | some (fs, r2) => some (Json.obj fs, r2)
         | none => none)
    | '[' :: rest =>
      (match skipWs rest with
       | ']' :: r2 => some (Json.arr [], r2)
       | other =>
         match parseElems fuel other with
         | some (es, r2) => some (Json.arr es, r2)
         | none => none)
    | 't' :: 'r' :: 'u' :: 'e' :: rest => some (Json.bool true, rest)
    | 'f' :: 'a' :: 'l' :: 's' :: 'e' :: rest => some (Json.bool false, rest)
    | 'n' :: 'u' :: 'l' :: 'l' :: rest => some (Json.null, rest)
    | other => parseNum other

/-- Parse the members of a JSON object (after the opening brace, first
member pending); consumes the closing brace. -/
def parseMembers : Nat → List Char → Option (List (List Char × Json) × List Char)
  | 0, _ => none
  | fuel + 1, input =>
    match skipWs input with
    | '"' :: rest =>
      (match parseStrChars rest with
       | some (key, r1) =>
         (match skipWs r1 with
          | ':' :: r2 =>
            (match parseVal fuel r2 with
             | some (v, r3) =>
               (match skipWs r3 with
                | ',' :: r4 =>
                  (match parseMembers fuel r4 with
                   | some (fs, r5) => some ((key, v) :: fs, r5)
                   | none => none)
                | '}' :: r4 => some ([(key, v)], r4)
                | _ => none)
             | none => none)
          | _ => none)
       | none => none)
    | _ => none

/-- Parse the elements of a JSON array (after the opening bracket, first
element pending); consumes the closing bracket. -/
def parseElems : Nat → List Char → Option (List Json × List Char)
  | 0, _ => none
  | fuel + 1, input =>
    match parseVal fuel input with
    | some (v, r1) =>
      (match skipWs r1 with
       | ',' :: r2 =>
         (match parseElems fuel r2 with
          | some (es, r3) => some (v :: es, r3)
          | none => none)
       | ']' :: r2 => some ([v], r2)
       | _ => none)
    | none => none

end

/-- Model of Python `json.loads`: the whole input (modulo surrounding
whitespace) must be one JSON value. -/
def parseJson (s : List Char) : Option Json :=
  match parseVal (s.length + 1) s with
  | some (j, r) => if skipWs r = [] then some j else none
  | none => none

/-- Python dict lookup on a parsed JSON object field list; later duplicate
keys win, as in `json.loads`. -/
def lookupField : List (List Char × Json) → List Char → Option Json
  | [], _ => none
  | (k, v) :: rest, key =>
    match lookupField rest key with
    | some v2 => some v2
    | none => if k = key then some v else none

/-- Python `j[key]` on a parsed value: succeeds only on objects holding the
key (a KeyError or TypeError is modelled as failure). -/
def getField (j : Json) (key : List Char) : Option Json :=
  match j with
  | Json.obj fs => lookupField fs key
  | _ => none

/-- Field access returning the string content of a string-valued field. -/
def getStrField (j : Json) (key : List Char) : Option (List Char) :=
  match getField j key with
  | some (Json.str s) => some s
  | _ => none

/-! ### Page analysis (`src/api/analyze.py`)

`ResponseExtractor` is the defensive-parse block inlined in
`analyze_page` (lines 93-109); `PageAnalyzer` is `analyze_page` plus the
per-image loop in `handler` (lines 184-198). -/

/-- The fallback record built at `src/api/analyze.py` lines 105-109 when
extracting JSON from the model output fails: narrator is the raw text
truncated to 500 characters, dialogues are empty, and the scene holds a
fixed failure marker. -/
def fallbackJson (content : List Char) : Json :=
  Json.obj
    [ (chars "narrator", Json.str (content.take 500))
    , (chars "dialogues", Json.arr [])
    , (chars "scene_description", Json.str (chars "Analysis failed to parse")) ]

/-- The defensive JSON extraction of `src/api/analyze.py` lines 93-109:
take the substring from the first `{` to the last `}` and parse it;
on any failure return `fallbackJson`.  The page number is accepted but,
as in the source, not used by the fallback. -/
def extract (content : List Char) (_pageNum : Nat) : Json :=
  if 0 ≤ pyFind content '{' ∧ pyFind content '{' < pyRfind content '}' + 1 then
    match parseJson (pySlice content (pyFind content '{').toNat (pyRfind content '}' + 1).toNat) with
    | some parsed => parsed
    | none => fallbackJson content
  else fallbackJson content

/-- One vision-service reply, as `analyze_page` observes it: the HTTP
status, the body text, and the body parsed as JSON when it is JSON
(`response.json()` raising is modelled by `none`). -/
structure VisionResponse where
  status_code : Nat
  text : List Char
  jsonBody : Option Json

/-- An exception escaping `analyze_page`: either the explicit raise at
line 87 for a non-200 status (with its message), or the uncaught failure
of `response.json()` / the `choices[0].message.content` access at
lines 89-90, which sit outside the defensive `try`. -/
inductive PyError where
  | apiError (msg : List Char)
  | badEnvelope

/-- The exception message built at `src/api/analyze.py` line 87. -/
def apiErrorMsg (resp : VisionResponse) : List Char :=
  chars "MiniMax API error: " ++ natChars resp.status_code ++ chars " - " ++ resp.text

/-- The `choices[0].message.content` envelope access of
`src/api/analyze.py` line 90. -/
def envelopeContent (j : Json) : Option (List Char) :=
  match getField j (chars "choices") with
  | some (Json.arr (first :: _)) =>
    (match getField first (chars "message") with
     | some m =>
       (match getField m (chars "content") with
        | some (Json.str c) => some c
        | _ => none)
     | none => none)
  | _ => none

/-- The model text a response yields: parse the body as JSON, then take
`choices[0].message.content`; `none` models an uncaught exception. -/
def respContent (resp : VisionResponse) : Option (List Char) :=
  match resp.jsonBody with
  | some b => envelopeContent b
  | none => none

/-- `analyze_page` (`src/api/analyze.py` lines 23-109) as observed through
one service response: raise on a non-200 status; raise when the envelope
access fails; otherwise run the defensive extraction. -/
def analyze_page (resp : VisionResponse) (page_num : Nat) : Except PyError Json :=
  if resp.status_code ≠ 200 then
    Except.error (PyError.apiError (apiErrorMsg resp))
  else
    match respContent resp with
    | some content => Except.ok (extract content page_num)
    | none => Except.error PyError.badEnvelope

/-- The sequential per-image loop of `handler`
(`src/api/analyze.py` lines 184-198), started at page index `i`:
the first exception aborts the whole batch. -/
def analyzeAllGo : Nat → List VisionResponse → Except PyError (List Json)
  | _, [] => Except.ok []
  | i, r :: rest =>
    match analyze_page r i with
    | Except.ok page =>
      (match analyzeAllGo (i + 1) rest with
       | Except.ok pages => Except.ok (page :: pages)
       | Except.error e => Except.error e)
    | Except.error e => Except.error e

/-- The batch analysis: one `analyze_page` call per image, in order.
Each input image is represented by the vision-service response it
elicits. -/
def analyzeAll (resps : List VisionResponse) : Except PyError (List Json) :=
  analyzeAllGo 0 resps

/-- Outcome of the analyze handler: HTTP status plus the page records on
success. -/
structure AnalyzeOutcome where
  statusCode : Nat
  pages : Option (List Json)

/-- The analyze `handler` (`src/api/analyze.py` lines 112-216) on the JSON
branch: empty image list rejected with 400 (line 171-175); any exception
from the loop caught at line 209 and turned into a 500 response;
otherwise 200 with the page records. -/
def handlerAnalyze (resps : List VisionResponse) : AnalyzeOutcome :=
  if resps.isEmpty then { statusCode := 400, pages := none }
  else
    match analyzeAll resps with
    | Except.ok pages => { statusCode := 200, pages := some pages }
    | Except.error _ => { statusCode := 500, pages := none }

/-! ### Audio synthesis (`src/api/synthesize.py`) -/

/-- One dialogue line of a page, as the synthesize handler reads it
(missing JSON fields default to the empty string via `.get`). -/
structure DialogueLine where
  character : List Char
  text : List Char
  emotion : List Char
deriving DecidableEq

/-- One page passed to the synthesize handler (missing fields default to
empty narrator / empty dialogue list via `.get`). -/
structure Page where
  narrator : List Char
  dialogues : List DialogueLine
deriving DecidableEq

/-- `VOICE_MAP['child']` (`src/api/synthesize.py` line 17). -/
def childVoice : List Char := chars "zh-CN-XiaoyiNeural"

/-- `VOICE_MAP['male']` (`src/api/synthesize.py` line 18). -/
def maleVoice : List Char := chars "zh-CN-YunxiNeural"

/-- `VOICE_MAP['female']` (`src/api/synthesize.py` line 19). -/
def femaleVoice : List Char := chars "zh-CN-XiaochenNeural"

/-- `VOICE_MAP['narrator']`, also `DEFAULT_VOICE`
(`src/api/synthesize.py` lines 16 and 23). -/
def narratorVoice : List Char := chars "zh-CN-XiaoxiaoNeural"

/-- `determine_voice` (`src/api/synthesize.py` lines 43-58): keyword
heuristics over the lowercased character name; the emotion argument is
accepted and ignored, as in the source.  Python `str.lower` is modelled
by character-wise `Char.toLower`, which agrees on the characters the
rule table inspects. -/
def determine_voice (character : List Char) (_emotion : List Char) : List Char :=
  let cl := character.map Char.toLower
  if isSubstr (chars "child") cl || isSubstr (chars "kid") cl
      || isSubstr (chars "boy") cl || isSubstr (chars "girl") cl then
    childVoice
  else if isSubstr (chars "father") cl || isSubstr (chars "dad") cl
      || isSubstr (chars "爸爸") character then
    maleVoice
  else if isSubstr (chars "mother") cl || isSubstr (chars "mom") cl
      || isSubstr (chars "妈妈") character then
    femaleVoice
  else
    narratorVoice

/-- The storage key built in `upload_to_cos`
(`src/api/synthesize.py` line 81):
`f"{book_id}/audio/page_{page_num}_{segment_type}.mp3"`. -/
def uploadKey (book_id : List Char) (page_num : Nat) (segment_type : List Char) : List Char :=
  book_id ++ chars "/audio/page_" ++ natChars page_num ++ ['_'] ++ segment_type ++ chars ".mp3"

/-- The public URL built in `upload_to_cos`
(`src/api/synthesize.py` line 97). -/
def publicUrl (bucket region key : List Char) : List Char :=
  chars "https://" ++ bucket ++ chars ".cos." ++ region ++ chars ".myqcloud.com/" ++ key

/-- The segment kinds one synthesis run produces: the narrator clip of a
page, or the clip of the dialogue at source position `j`. -/
inductive SegKind where
  | narrator
  | dialogue (j : Nat)
deriving DecidableEq

/-- The `segment_type` string the handler passes to `upload_to_cos` for a
segment kind (`src/api/synthesize.py` lines 134 and 148). -/
def segChars : SegKind → List Char
  | SegKind.narrator => chars "narrator"
  | SegKind.dialogue j => chars "dialogue_" ++ natChars j

/-- One entry of the per-page dialogue URL list
(`src/api/synthesize.py` lines 150-155). -/
structure DialogueSeg where
  character : List Char
  text : List Char
  url : List Char
  emotion : List Char
deriving DecidableEq

/-- The per-page manifest (`page_audios`): the narrator URL when one was
produced, and the dialogue segment list
(`src/api/synthesize.py` lines 128-158). -/
structure PageManifest where
  narrator : Option (List Char)
  dialogues : List DialogueSeg
deriving DecidableEq

/-- The dialogue loop of the synthesize handler
(`src/api/synthesize.py` lines 141-155), started at dialogue index `j`:
empty-text lines are skipped but still advance the index (Python
`enumerate`). -/
def dialogueSegs (bucket region book_id : List Char) (page_num : Nat) :
    Nat → List DialogueLine → List DialogueSeg
  | _, [] => []
  | j, d :: rest =>
    if !d.text.isEmpty then
      { character := d.character
      , text := d.text
      , url := publicUrl bucket region (uploadKey book_id page_num (segChars (SegKind.dialogue j)))
      , emotion := d.emotion }
        :: dialogueSegs bucket region book_id page_num (j + 1) rest
    else dialogueSegs bucket region book_id page_num (j + 1) rest

/-- The per-page body of the synthesize handler loop
(`src/api/synthesize.py` lines 127-158): a narrator segment only when the
narrator text is non-empty, then the dialogue segments. -/
def processPage (bucket region book_id : List Char) (page_num : Nat) (page : Page) : PageManifest :=
  { narrator :=
      if !page.narrator.isEmpty then
        some (publicUrl bucket region (uploadKey book_id page_num (segChars SegKind.narrator)))
      else none
  , dialogues := dialogueSegs bucket region book_id page_num 0 page.dialogues }

/-- The page loop of the synthesize handler, started at page index `i`. -/
def synthGo (bucket region book_id : List Char) : Nat → List Page → List PageManifest
  | _, [] => []
  | i, p :: rest => processPage bucket region book_id i p :: synthGo bucket region book_id (i + 1) rest

/-- `synthesizeBook`: the manifest list the handler builds for `pages`
under `book_id` (`src/api/synthesize.py` lines 125-158). -/
def synthesizeBook (bucket region book_id : List Char) (pages : List Page) : List PageManifest :=
  synthGo bucket region book_id 0 pages

/-- The storage keys one page uploads, in call order. -/
def pageUploadKeys (book_id : List Char) (page_num : Nat) (page : Page) : List (List Char) :=
  (if !page.narrator.isEmpty then [uploadKey book_id page_num (segChars SegKind.narrator)] else [])
    ++ (page.dialogues.enum.filter (fun x => !x.2.text.isEmpty)).map
        (fun x => uploadKey book_id page_num (segChars (SegKind.dialogue x.1)))

/-- All storage keys a run uploads, in call order. -/
def synthUploadKeys (book_id : List Char) : Nat → List Page → List (List Char)
  | _, [] => []
  | i, p :: rest => pageUploadKeys book_id i p ++ synthUploadKeys book_id (i + 1) rest

/-- The synthesize request body, as the handler reads it:
`body.get('pages', [])` and the optional `book_id` field
(`src/api/synthesize.py` lines 114-116). -/
structure SynthRequest where
  pages : List Page
  bookIdField : Option (List Char)

/-- Outcome of the synthesize handler: HTTP status, the book id and
manifest list on success, and the network calls issued (uploaded storage
keys; each upload is preceded by exactly one synthesis call). -/
structure SynthOutcome where
  statusCode : Nat
  book_id : Option (List Char)
  audio_urls : Option (List PageManifest)
  uploads : List (List Char)
deriving DecidableEq

/-- The synthesize `handler` (`src/api/synthesize.py` lines 102-176) on
the POST/JSON path: an empty (or missing) `pages` list is rejected with
400 before any work; a missing `book_id` is replaced by a freshly
generated uuid (`freshId`, modelling `str(uuid.uuid4())` at line 116);
otherwise every page is processed in order. -/
def handlerSynth (req : SynthRequest) (freshId bucket region : List Char) : SynthOutcome :=
  if req.pages = [] then
    { statusCode := 400, book_id := none, audio_urls := none, uploads := [] }
  else
    let bid := req.bookIdField.getD freshId
    { statusCode := 200
    , book_id := some bid
    , audio_urls := some (synthesizeBook bucket region bid req.pages)
    , uploads := synthUploadKeys bid 0 req.pages }

/-! ### Helper lemmas: decimal printing -/

lemma digitChar_isDigit (d : Nat) : isDigitChar (digitChar d) = true := by
  rcases d with _ | _ | _ | _ | _ | _ | _ | _ | _ | d <;> rfl

lemma digitChar_inj_lt : ∀ a < 10, ∀ b < 10, digitChar a = digitChar b → a = b := by decide

lemma natCharsAux_irrel : ∀ f1 : Nat, ∀ n : Nat, n < f1 → ∀ f2 : Nat, n < f2 →
    natCharsAux f1 n = natCharsAux f2 n := by
  intro f1
  induction f1 with
  | zero => intro n h; omega
  | succ g ih =>
    intro n hn f2 hf2
    match f2, hf2 with
    | h2 + 1, _ =>
      show natCharsAux (g + 1) n = natCharsAux (h2 + 1) n
      unfold natCharsAux
      by_cases h : n < 10
      · simp [h]
      · simp only [h, if_false]
        have hdiv : n / 10 < n := Nat.div_lt_self (by omega) (by omega)
        have h1 : n / 10 < g := by omega
        have h2' : n / 10 < h2 := by omega
        rw [ih (n / 10) h1 h2 h2']

lemma natChars_eq (n : Nat) :
    natChars n = if n < 10 then [digitChar n] else natChars (n / 10) ++ [digitChar (n % 10)] := by
  show natCharsAux (n + 1) n = _
  unfold natCharsAux
  by_cases h : n < 10
  · simp [h]
  · simp only [h, if_false]
    have hdiv : n / 10 < n := Nat.div_lt_self (by omega) (by omega)
    rw [natCharsAux_irrel n (n / 10) (by omega) (n / 10 + 1) (by omega)]
    rfl

lemma natChars_ne_nil (n : Nat) : natChars n ≠ [] := by
  rw [natChars_eq]
  by_cases h : n < 10 <;> simp [h]

lemma natChars_digits (n : Nat) : ∀ c ∈ natChars n, isDigitChar c = true := by
  induction n using Nat.strong_induction_on with
  | _ n ih =>
    rw [natChars_eq]
    by_cases h : n < 10
    · simp only [h, if_true]
      intro c hc
      rw [List.mem_singleton] at hc
      subst hc
      exact digitChar_isDigit n
    · simp only [h, if_false]
      intro c hc
      rcases List.mem_append.mp hc with h1 | h2
      · exact ih (n / 10) (Nat.div_lt_self (by omega) (by omega)) c h1
      · rw [List.mem_singleton] at h2
        subst h2
        exact digitChar_isDigit (n % 10)

lemma natChars_inj : ∀ m n : Nat, natChars m = natChars n → m = n := by
  intro m
  induction m using Nat.strong_induction_on with
  | _ m ih =>
    intro n h
    rw [natChars_eq m, natChars_eq n] at h
    by_cases hm : m < 10 <;> by_cases hn : n < 10
    · simp only [hm, hn, if_true, List.cons.injEq] at h
      exact digitChar_inj_lt m hm n hn h.1
    · exfalso
      simp only [hm, hn, if_true, if_false] at h
      cases hh : natChars (n / 10) with
      | nil => exact natChars_ne_nil _ hh
      | cons a as => rw [hh] at h; simp at h
    · exfalso
      simp only [hm, hn, if_true, if_false] at h
      cases hh : natChars (m / 10) with
      | nil => exact natChars_ne_nil _ hh
      | cons a as => rw [hh] at h; simp at h
    · simp only [hm, hn, if_false] at h
      have hlen : (natChars (m / 10)).length = (natChars (n / 10)).length := by
        have := congrArg List.length h
        simp at this
        omega
      obtain ⟨h1, h2⟩ := List.append_inj h hlen
      have hdiv : m / 10 = n / 10 :=
        ih (m / 10) (Nat.div_lt_self (by omega) (by omega)) (n / 10) h1
      have hmod : m % 10 = n % 10 := by
        simp only [List.cons.injEq] at h2
        exact digitChar_inj_lt (m % 10) (Nat.mod_lt m (by omega)) (n % 10)
          (Nat.mod_lt n (by omega)) h2.1
      omega

/-- Splitting a digit-run-plus-tail concatenation: when both left parts are
all digits and both right parts start with a non-digit, the parts agree. -/
lemma digits_split : ∀ a1 b1 a2 b2 : List Char,
    (∀ c ∈ a1, isDigitChar c = true) → (∀ c ∈ a2, isDigitChar c = true) →
    (∀ c, b1.head? = some c → isDigitChar c = false) →
    (∀ c, b2.head? = some c → isDigitChar c = false) →
    a1 ++ b1 = a2 ++ b2 → a1 = a2 ∧ b1 = b2 := by
  intro a1
  induction a1 with
  | nil =>
    intro b1 a2 b2 _ ha2 hb1 _ h
    cases a2 with
    | nil => exact ⟨rfl, h⟩
    | cons x a2' =>
      simp only [List.nil_append, List.cons_append] at h
      subst h
      have hd := hb1 x rfl
      have := ha2 x (by simp)
      rw [this] at hd
      cases hd
  | cons x a1' ih =>
    intro b1 a2 b2 ha1 ha2 hb1 hb2 h
    cases a2 with
    | nil =>
      simp only [List.cons_append, List.nil_append] at h
      subst h
      have hd := hb2 x rfl
      have := ha1 x (by simp)
      rw [this] at hd
      cases hd
    | cons y a2' =>
      simp only [List.cons_append, List.cons.injEq] at h
      obtain ⟨hxy, hrest⟩ := h
      subst hxy
      obtain ⟨h1, h2⟩ := ih b1 a2' b2 (fun c hc => ha1 c (by simp [hc]))
        (fun c hc => ha2 c (by simp [hc])) hb1 hb2 hrest
      exact ⟨by rw [h1], h2⟩

/-! ### Helper lemmas: find / slice -/

lemma findChar_none : ∀ (s : List Char) (c : Char), (∀ x ∈ s, x ≠ c) → findChar s c = none := by
  intro s c
  induction s with
  | nil => intro _; rfl
  | cons x rest ih =>
    intro h
    unfold findChar
    have hx : x ≠ c := h x (by simp)
    simp only [hx, if_false]
    rw [ih (fun y hy => h y (by simp [hy]))]
    rfl

lemma findChar_append_first : ∀ (pre : List Char) (c : Char) (rest : List Char),
    (∀ x ∈ pre, x ≠ c) → findChar (pre ++ c :: rest) c = some pre.length := by
  intro pre c
  induction pre with
  | nil =>
    intro rest _
    unfold findChar
    simp
  | cons x pre' ih =>
    intro rest h
    have hx : x ≠ c := h x (by simp)
    show findChar (x :: (pre' ++ c :: rest)) c = _
    unfold findChar
    simp only [hx, if_false]
    rw [ih rest (fun y hy => h y (by simp [hy]))]
    rfl

lemma take_len_append : ∀ (a b : List Char) (n : Nat), (a ++ b).take (a.length + n) = a ++ b.take n := by
  intro a b n
  induction a with
  | nil => simp
  | cons x a' ih =>
    simp only [List.cons_append, List.length_cons]
    rw [Nat.succ_add]
    simp only [List.take_succ_cons]
    rw [ih]

lemma drop_len_append : ∀ (a b : List Char), (a ++ b).drop a.length = b := by
  intro a b
  induction a with
  | nil => simp
  | cons x a' ih => simp [ih]

lemma pySlice_mid (pre body post : List Char) :
    pySlice (pre ++ body ++ post) pre.length (pre.length + body.length) = body := by
  unfold pySlice
  rw [List.append_assoc, take_len_append]
  have : (body ++ post).take body.length = body := by simp
  rw [this, drop_len_append]

/-! ### Helper lemmas: substring occurrence -/

lemma leadsWith_self_append : ∀ (n r : List Char), leadsWith n (n ++ r) = true := by
  intro n
  induction n with
  | nil => intro r; rfl
  | cons x n' ih =>
    intro r
    show leadsWith (x :: n') (x :: (n' ++ r)) = true
    unfold leadsWith
    simp [ih r]

/-! ### Helper lemmas: the defensive extraction on decomposed input -/

lemma pyFind_decomp (pre mid post : List Char) (hpre : ∀ c ∈ pre, c ≠ '{') :
    pyFind (pre ++ ('{' :: mid ++ ['}']) ++ post) '{' = (pre.length : Int) := by
  unfold pyFind
  have hshape : pre ++ ('{' :: mid ++ ['}']) ++ post
      = pre ++ '{' :: (mid ++ ['}'] ++ post) := by
    simp
  rw [hshape, findChar_append_first pre '{' _ hpre]

lemma pyRfind_decomp (pre mid post : List Char) (hpost : ∀ c ∈ post, c ≠ '}') :
    pyRfind (pre ++ ('{' :: mid ++ ['}']) ++ post) '}'
      = ((pre.length + mid.length + 1 : Nat) : Int) := by
  unfold pyRfind
  have hrev : (pre ++ ('{' :: mid ++ ['}']) ++ post).reverse
      = post.reverse ++ '}' :: (mid.reverse ++ '{' :: pre.reverse) := by
    simp
  rw [hrev, findChar_append_first post.reverse '}' _
    (fun x hx => hpost x (List.mem_reverse.mp hx))]
  simp only [List.length_append, List.length_cons, List.length_reverse, List.length_nil]
  omega

lemma extract_decomp (pre mid post : List Char) (pn : Nat) (j : Json)
    (hpre : ∀ c ∈ pre, c ≠ '{') (hpost : ∀ c ∈ post, c ≠ '}')
    (hparse : parseJson ('{' :: mid ++ ['}']) = some j) :
    extract (pre ++ ('{' :: mid ++ ['}']) ++ post) pn = j := by
  unfold extract
  rw [pyFind_decomp pre mid post hpre, pyRfind_decomp pre mid post hpost]
  rw [if_pos (by constructor <;> omega)]
  have h1 : ((pre.length : Nat) : Int).toNat = pre.length := by simp
  have h2 : (((pre.length + mid.length + 1 : Nat) : Int) + 1).toNat
      = pre.length + ('{' :: mid ++ ['}']).length := by
    simp
    omega
  rw [h1, h2, pySlice_mid pre ('{' :: mid ++ ['}']) post, hparse]

lemma isSubstr_of_parts : ∀ (l n r : List Char), n ≠ [] → isSubstr n (l ++ n ++ r) = true := by
  intro l
  induction l with
  | nil =>
    intro n r hn
    cases n with
    | nil => exact absurd rfl hn
    | cons x n' =>
      show isSubstr (x :: n') (x :: (n' ++ r)) = true
      unfold isSubstr
      rw [Bool.or_eq_true]
      left
      exact leadsWith_self_append (x :: n') r
  | cons y l' ih =>
    intro n r hn
    show isSubstr n (y :: (l' ++ n ++ r)) = true
    unfold isSubstr
    rw [Bool.or_eq_true]
    right
    exact ih n r hn

/-! ### Helper lemmas: the batch loops -/

lemma analyzeAllGo_ok : ∀ (resps : List VisionResponse) (k : Nat),
    (∀ r ∈ resps, r.status_code = 200 ∧ (respContent r).isSome = true) →
    ∃ pages, analyzeAllGo k resps = Except.ok pages ∧ pages.length = resps.length ∧
      ∀ i r, resps.get? i = some r →
        ∃ c, respContent r = some c ∧ pages.get? i = some (extract c (k + i)) := by
  intro resps
  induction resps with
  | nil =>
    intro k _
    exact ⟨[], rfl, rfl, by intro i r h; cases i <;> cases h⟩
  | cons r rest ih =>
    intro k h
    obtain ⟨h200, hsome⟩ := h r (by simp)
    obtain ⟨c, hc⟩ := Option.isSome_iff_exists.mp hsome
    obtain ⟨pages, hgo, hlen, hidx⟩ := ih (k + 1) (fun r' hr' => h r' (by simp [hr']))
    refine ⟨extract c k :: pages, ?_, by simp [hlen], ?_⟩
    · unfold analyzeAllGo
      have hap : analyze_page r k = Except.ok (extract c k) := by
        simp [analyze_page, h200, hc]
      rw [hap, hgo]
    · intro i r' hr'
      cases i with
      | zero =>
        simp only [List.get?] at hr'
        injection hr' with hr'
        subst hr'
        exact ⟨c, hc, by simp⟩
      | succ i' =>
        simp only [List.get?] at hr'
        obtain ⟨c', hc', hp⟩ := hidx i' r' hr'
        refine ⟨c', hc', ?_⟩
        simp only [List.get?]
        rw [hp]
        congr 2
        omega

lemma synthGo_get (bucket region bid : List Char) :
    ∀ (ps : List Page) (k i : Nat),
      (synthGo bucket region bid k ps).get? i
        = (ps.get? i).map (fun p => processPage bucket region bid (k + i) p) := by
  intro ps
  induction ps with
  | nil => intro k i; cases i <;> rfl
  | cons p rest ih =>
    intro k i
    cases i with
    | zero => simp [synthGo]
    | succ i' =>
      show (synthGo bucket region bid (k + 1) rest).get? i' = _
      rw [ih (k + 1) i']
      simp only [List.get?]
      congr 2
      funext q
      congr 1
      omega

lemma dialogueSegs_enumFrom (bucket region bid : List Char) (p : Nat) :
    ∀ (ds : List DialogueLine) (k : Nat),
      dialogueSegs bucket region bid p k ds
        = ((ds.enumFrom k).filter (fun x => !x.2.text.isEmpty)).map
            (fun x =>
              { character := x.2.character
              , text := x.2.text
              , url := publicUrl bucket region (uploadKey bid p (segChars (SegKind.dialogue x.1)))
              , emotion := x.2.emotion }) := by
  intro ds
  induction ds with
  | nil => intro k; rfl
  | cons d rest ih =>
    intro k
    rw [List.enumFrom_cons]
    unfold dialogueSegs
    by_cases ht : d.text.isEmpty
    · rw [if_neg (by simp [ht]), ih (k + 1)]
      simp [ht]
    · rw [if_pos (by simp [ht]), ih (k + 1)]
      simp [ht]

/-! ### Claims -/

/-- C1, counterexample. The claim says a non-success vision response must
not raise and must degrade to a fallback PageAnalysis whose scene embeds
the status code. At a concrete status-500 response the code instead
raises (the explicit raise at `src/api/analyze.py` line 87), and the
analyze handler turns that into a 500 error response with no page
records at all. -/
theorem c1_counterexample :
    analyze_page ⟨500, chars "boom", none⟩ 0
      = Except.error (PyError.apiError (chars "MiniMax API error: 500 - boom"))
    ∧ handlerAnalyze [⟨500, chars "boom", none⟩] = ⟨500, none⟩ :=
  ⟨rfl, rfl⟩

/-- C1, amended. On every non-success response `analyze_page` raises an
exception whose message embeds the status code and the error body text
(no fallback record is produced), and the batch handler surfaces it as a
500 error response. -/
theorem c1_amended (resp : VisionResponse) (n : Nat) (h : resp.status_code ≠ 200) :
    analyze_page resp n
      = Except.error (PyError.apiError
          (chars "MiniMax API error: " ++ natChars resp.status_code ++ chars " - " ++ resp.text))
    ∧ (handlerAnalyze [resp]).statusCode = 500
    ∧ (handlerAnalyze [resp]).pages = none := by
  have hap : analyze_page resp n
      = Except.error (PyError.apiError (apiErrorMsg resp)) := by
    simp [analyze_page, h]
  have hap0 : analyze_page resp 0
      = Except.error (PyError.apiError (apiErrorMsg resp)) := by
    simp [analyze_page, h]
  refine ⟨hap, ?_, ?_⟩ <;>
    simp [handlerAnalyze, analyzeAll, analyzeAllGo, hap0]

/-- C1, witness for the amended claim at a concrete status-500 response. -/
theorem c1_amended_witness :
    analyze_page ⟨500, chars "boom", none⟩ 3
      = Except.error (PyError.apiError
          (chars "MiniMax API error: " ++ natChars 500 ++ chars " - " ++ chars "boom"))
    ∧ (handlerAnalyze [⟨500, chars "boom", none⟩]).statusCode = 500
    ∧ (handlerAnalyze [⟨500, chars "boom", none⟩]).pages = none :=
  c1_amended ⟨500, chars "boom", none⟩ 3 (by decide)

/-- C2, counterexample. The claim says the batch always yields one record
per input image regardless of per-page provider failures. A batch of one
image whose provider call returns status 500 yields no record list at
all: the loop aborts with the raised exception and the handler answers
with a 500 error response. -/
theorem c2_counterexample :
    analyzeAll [⟨500, chars "boom", none⟩]
      = Except.error (PyError.apiError (chars "MiniMax API error: 500 - boom"))
    ∧ (handlerAnalyze [⟨500, chars "boom", none⟩]).statusCode = 500
    ∧ (handlerAnalyze [⟨500, chars "boom", none⟩]).pages = none :=
  ⟨rfl, rfl, rfl⟩

/-- C2, amended. When every per-page provider call returns a success
response with a well-formed envelope, the batch returns one record per
input image, positionally: the record at index i is the extraction of
the i-th response content at page number i. A per-page provider failure
instead aborts the whole batch (see the counterexample). -/
theorem c2_amended (resps : List VisionResponse)
    (h : ∀ r ∈ resps, r.status_code = 200 ∧ (respContent r).isSome = true) :
    ∃ pages, analyzeAll resps = Except.ok pages ∧ pages.length = resps.length ∧
      ∀ i r, resps.get? i = some r →
        ∃ c, respContent r = some c ∧ pages.get? i = some (extract c i) := by
  obtain ⟨pages, hgo, hlen, hidx⟩ := analyzeAllGo_ok resps 0 h
  refine ⟨pages, hgo, hlen, ?_⟩
  intro i r hr
  obtain ⟨c, hc, hp⟩ := hidx i r hr
  exact ⟨c, hc, by simpa using hp⟩

/-- Concrete success envelope used by the C2 witness. -/
def sampleEnvelope : Json :=
  Json.obj
    [ (chars "choices", Json.arr
        [ Json.obj
            [ (chars "message", Json.obj
                [ (chars "content", Json.str (chars "no braces here")) ]) ] ]) ]

/-- Concrete success response used by the C2 witness. -/
def sampleOkResponse : VisionResponse :=
  ⟨200, chars "ignored", some sampleEnvelope⟩

/-- C2, witness for the amended claim on a concrete one-image batch whose
provider call succeeds. -/
theorem c2_amended_witness :
    ∃ pages, analyzeAll [sampleOkResponse] = Except.ok pages
      ∧ pages.length = [sampleOkResponse].length
      ∧ ∀ i r, [sampleOkResponse].get? i = some r →
          ∃ c, respContent r = some c ∧ pages.get? i = some (extract c i) :=
  c2_amended [sampleOkResponse]
    (by
      intro r hr
      rw [List.mem_singleton] at hr
      subst hr
      exact ⟨rfl, rfl⟩)

/-- C10. Implicit claim, confirmed: when the vision service answers with
status 200 but the body does not carry the `choices[0].message.content`
envelope, the access at `src/api/analyze.py` line 90 sits before and
outside the defensive `try`, so `analyze_page` raises and the whole
request fails with a 500 error response instead of degrading that page
to a fallback record. -/
theorem c10_envelope_failure (resp : VisionResponse) (n : Nat)
    (h200 : resp.status_code = 200) (henv : respContent resp = none) :
    analyze_page resp n = Except.error PyError.badEnvelope
    ∧ handlerAnalyze [resp] = ⟨500, none⟩ := by
  have hap : ∀ m : Nat, analyze_page resp m = Except.error PyError.badEnvelope := by
    intro m
    simp [analyze_page, h200, henv]
  refine ⟨hap n, ?_⟩
  simp [handlerAnalyze, analyzeAll, analyzeAllGo, hap 0]

/-- C10, witness at a concrete 200 response whose JSON body is the empty
object (no choices field). -/
theorem c10_envelope_failure_witness :
    analyze_page ⟨200, chars "\x7b\x7d", some (Json.obj [])⟩ 0 = Except.error PyError.badEnvelope
    ∧ handlerAnalyze [⟨200, chars "\x7b\x7d", some (Json.obj [])⟩] = ⟨500, none⟩ :=
  c10_envelope_failure ⟨200, chars "\x7b\x7d", some (Json.obj [])⟩ 0 rfl rfl

/-- C3, counterexample. The claim says an empty `pages` sequence makes
`synthesizeBook` return an empty manifest sequence. The handler instead
rejects the request with a 400 response before any processing: no
manifest sequence (empty or otherwise) is returned. The no-network-calls
part does hold. -/
theorem c3_counterexample :
    (handlerSynth ⟨[], some (chars "b1")⟩ (chars "fresh") (chars "bkt") (chars "rg")).statusCode = 400
    ∧ (handlerSynth ⟨[], some (chars "b1")⟩ (chars "fresh") (chars "bkt") (chars "rg")).audio_urls = none
    ∧ (handlerSynth ⟨[], some (chars "b1")⟩ (chars "fresh") (chars "bkt") (chars "rg")).uploads = [] :=
  ⟨rfl, rfl, rfl⟩

/-- C3, amended. Calling the synthesize handler with an empty pages
sequence is rejected immediately with a 400 outcome carrying no manifest
sequence, and no network calls (no synthesis, no upload) are issued. -/
theorem c3_amended (req : SynthRequest) (freshId bucket region : List Char)
    (h : req.pages = []) :
    handlerSynth req freshId bucket region
      = { statusCode := 400, book_id := none, audio_urls := none, uploads := [] } := by
  simp [handlerSynth, h]

/-- C3, witness for the amended claim at a concrete empty request. -/
theorem c3_amended_witness :
    handlerSynth ⟨[], none⟩ (chars "fresh") (chars "bkt") (chars "rg")
      = { statusCode := 400, book_id := none, audio_urls := none, uploads := [] } :=
  c3_amended ⟨[], none⟩ (chars "fresh") (chars "bkt") (chars "rg") rfl

/-- C4, counterexample. The claim says a synthesis request without a book
id is rejected. At a concrete request with one page and no book id field
the handler instead processes the request: it answers 200 and
substitutes a freshly generated uuid as the book id
(`src/api/synthesize.py` line 116). -/
theorem c4_counterexample :
    (handlerSynth ⟨[⟨chars "Hello", []⟩], none⟩ (chars "fresh-uuid") (chars "bkt") (chars "rg")).statusCode = 200
    ∧ (handlerSynth ⟨[⟨chars "Hello", []⟩], none⟩ (chars "fresh-uuid") (chars "bkt") (chars "rg")).book_id
        = some (chars "fresh-uuid") :=
  ⟨rfl, rfl⟩

/-- C4, amended. Requests missing their images (analyze) or missing their
pages (synthesize) are rejected immediately with a 400 outcome and no
partial processing; but a synthesize request missing its book id is NOT
rejected: a freshly generated uuid is substituted and the request is
processed normally. -/
theorem c4_amended :
    (∀ resps : List VisionResponse, resps = [] → handlerAnalyze resps = ⟨400, none⟩)
    ∧ (∀ (req : SynthRequest) (f b r : List Char), req.pages = [] →
        (handlerSynth req f b r).statusCode = 400 ∧ (handlerSynth req f b r).uploads = [])
    ∧ (∀ (req : SynthRequest) (f b r : List Char), req.bookIdField = none → req.pages ≠ [] →
        (handlerSynth req f b r).statusCode = 200
        ∧ (handlerSynth req f b r).book_id = some f) := by
  refine ⟨?_, ?_, ?_⟩
  · intro resps h
    subst h
    rfl
  · intro req f b r h
    constructor <;> simp [handlerSynth, h]
  · intro req f b r hid hp
    constructor <;> simp [handlerSynth, hp, hid]

/-- C4, witness for the amended claim at concrete requests. -/
theorem c4_amended_witness :
    handlerAnalyze [] = ⟨400, none⟩
    ∧ ((handlerSynth ⟨[], none⟩ (chars "f") (chars "b") (chars "r")).statusCode = 400
        ∧ (handlerSynth ⟨[], none⟩ (chars "f") (chars "b") (chars "r")).uploads = [])
    ∧ ((handlerSynth ⟨[⟨chars "Hi", []⟩], none⟩ (chars "f") (chars "b") (chars "r")).statusCode = 200
        ∧ (handlerSynth ⟨[⟨chars "Hi", []⟩], none⟩ (chars "f") (chars "b") (chars "r")).book_id
            = some (chars "f")) :=
  ⟨c4_amended.1 [] rfl,
   c4_amended.2.1 ⟨[], none⟩ (chars "f") (chars "b") (chars "r") rfl,
   c4_amended.2.2 ⟨[⟨chars "Hi", []⟩], none⟩ (chars "f") (chars "b") (chars "r") rfl (by simp)⟩

/-- C5, counterexample. The claim says the fallback narrator contains the
given page number. For the brace-free raw text "hello" at page number 3
the fallback narrator is exactly the raw text "hello", which contains
neither "3" nor "4": the code builds the fallback from the truncated raw
text and never embeds the page number
(`src/api/analyze.py` lines 105-109). The empty-dialogues part does
hold. -/
theorem c5_counterexample :
    getStrField (extract (chars "hello") 3) (chars "narrator") = some (chars "hello")
    ∧ getField (extract (chars "hello") 3) (chars "dialogues") = some (Json.arr [])
    ∧ isSubstr (chars "3") (chars "hello") = false
    ∧ isSubstr (chars "4") (chars "hello") = false :=
  ⟨rfl, rfl, rfl, rfl⟩

/-- C5, amended. The extraction is a total function (it never raises, by
construction of the embedding), and on every raw text containing no
brace pair it returns the fallback record: empty dialogues, narrator
equal to the raw text truncated to 500 characters (the page number is
not embedded), and the fixed failure marker as scene description. -/
theorem c5_amended (raw : List Char) (pn : Nat)
    (h1 : '{' ∉ raw) (_h2 : '}' ∉ raw) :
    extract raw pn = fallbackJson raw
    ∧ getField (extract raw pn) (chars "dialogues") = some (Json.arr [])
    ∧ getStrField (extract raw pn) (chars "narrator") = some (raw.take 500)
    ∧ getStrField (extract raw pn) (chars "scene_description")
        = some (chars "Analysis failed to parse") := by
  have hfind : pyFind raw '{' = -1 := by
    unfold pyFind
    rw [findChar_none raw '{' (fun x hx => by rintro rfl; exact h1 hx)]
  have hex : extract raw pn = fallbackJson raw := by
    unfold extract
    rw [hfind]
    rw [if_neg]
    rintro ⟨ha, _⟩
    omega
  refine ⟨hex, ?_, ?_, ?_⟩ <;> rw [hex] <;> rfl

/-- C5, witness for the amended claim at the concrete raw text "hello"
and page number 3. -/
theorem c5_amended_witness :
    extract (chars "hello") 3 = fallbackJson (chars "hello")
    ∧ getField (extract (chars "hello") 3) (chars "dialogues") = some (Json.arr [])
    ∧ getStrField (extract (chars "hello") 3) (chars "narrator")
        = some ((chars "hello").take 500)
    ∧ getStrField (extract (chars "hello") 3) (chars "scene_description")
        = some (chars "Analysis failed to parse") :=
  c5_amended (chars "hello") 3 (by decide) (by decide)

/-- Interior of the well-formed JSON object used by the C6 theorems. -/
def catMid : List Char :=
  chars "\"narrator\": \"A cat sat.\", \"dialogues\": [\x7b\"character\": \"Mom\", \"text\": \"Hi\", \"emotion\": \"happy\"\x7d, \x7b\"character\": \"Boy\", \"text\": \"Yo\", \"emotion\": \"calm\"\x7d], \"scene_description\": \"a cat on a mat\""

/-- The well-formed JSON object text used by the C6 theorems. -/
def catJsonText : List Char := '{' :: catMid ++ ['}']

/-- The parsed value of `catJsonText`. -/
def catJson : Json :=
  Json.obj
    [ (chars "narrator", Json.str (chars "A cat sat."))
    , (chars "dialogues", Json.arr
        [ Json.obj
            [ (chars "character", Json.str (chars "Mom"))
            , (chars "text", Json.str (chars "Hi"))
            , (chars "emotion", Json.str (chars "happy")) ]
        , Json.obj
            [ (chars "character", Json.str (chars "Boy"))
            , (chars "text", Json.str (chars "Yo"))
            , (chars "emotion", Json.str (chars "calm")) ] ])
    , (chars "scene_description", Json.str (chars "a cat on a mat")) ]

/-- C6, counterexample. The claim quantifies over every raw text
containing a well-formed JSON object. The raw text below contains the
well-formed object `catJsonText` (whose scene description is
"a cat on a mat"), yet because a stray brace occurs in the prose before
the object, the first-brace/last-brace substring fails to parse and the
extraction returns the fallback record instead of the contained
object. -/
theorem c6_counterexample :
    parseJson catJsonText = some catJson
    ∧ extract (chars "x\x7by " ++ catJsonText) 0 = fallbackJson (chars "x\x7by " ++ catJsonText)
    ∧ getStrField (extract (chars "x\x7by " ++ catJsonText) 0) (chars "scene_description")
        = some (chars "Analysis failed to parse")
    ∧ getStrField catJson (chars "scene_description") = some (chars "a cat on a mat")
    ∧ chars "Analysis failed to parse" ≠ chars "a cat on a mat" :=
  ⟨rfl, rfl, rfl, rfl, by decide⟩

/-- C6, amended. For every raw text containing a well-formed JSON object
(with the narrator/dialogues/scene_description fields) such that no
brace before the object and no closing brace after it disturb the
first-brace/last-brace scan, the extraction returns exactly the parsed
object, dialogue order included. -/
theorem c6_amended (pre mid post : List Char) (pn : Nat) (j : Json)
    (hpre : ∀ c ∈ pre, c ≠ '{') (hpost : ∀ c ∈ post, c ≠ '}')
    (hparse : parseJson ('{' :: mid ++ ['}']) = some j)
    (_hshape : (getStrField j (chars "narrator")).isSome = true
      ∧ (getField j (chars "dialogues")).isSome = true
      ∧ (getStrField j (chars "scene_description")).isSome = true) :
    extract (pre ++ ('{' :: mid ++ ['}']) ++ post) pn = j :=
  extract_decomp pre mid post pn j hpre hpost hparse

/-- C6, witness for the amended claim: the object embedded in brace-free
surrounding prose is returned exactly, with both dialogue entries in
their original order. -/
theorem c6_amended_witness :
    extract (chars "Here is the JSON: " ++ ('{' :: catMid ++ ['}']) ++ chars " Thanks.") 7
      = catJson
    ∧ getField catJson (chars "dialogues")
        = some (Json.arr
            [ Json.obj
                [ (chars "character", Json.str (chars "Mom"))
                , (chars "text", Json.str (chars "Hi"))
                , (chars "emotion", Json.str (chars "happy")) ]
            , Json.obj
                [ (chars "character", Json.str (chars "Boy"))
                , (chars "text", Json.str (chars "Yo"))
                , (chars "emotion", Json.str (chars "calm")) ] ]) :=
  ⟨c6_amended (chars "Here is the JSON: ") catMid (chars " Thanks.") 7 catJson
      (by decide) (by decide) rfl ⟨rfl, rfl, rfl⟩,
   rfl⟩

/-- Injectivity of the segment-type strings the handler passes to
`upload_to_cos`. -/
lemma segChars_inj : ∀ s1 s2 : SegKind, segChars s1 = segChars s2 → s1 = s2 := by
  intro s1 s2 h
  cases s1 with
  | narrator =>
    cases s2 with
    | narrator => rfl
    | dialogue j =>
      exfalso
      have h1 : (chars "narrator").head? = (chars "dialogue_" ++ natChars j).head? :=
        congrArg List.head? h
      rw [show (chars "narrator").head? = some 'n' from rfl,
          show (chars "dialogue_" ++ natChars j).head? = some 'd' from rfl] at h1
      simp at h1
  | dialogue j1 =>
    cases s2 with
    | narrator =>
      exfalso
      have h1 : (chars "dialogue_" ++ natChars j1).head? = (chars "narrator").head? :=
        congrArg List.head? h
      rw [show (chars "dialogue_" ++ natChars j1).head? = some 'd' from rfl,
          show (chars "narrator").head? = some 'n' from rfl] at h1
      simp at h1
    | dialogue j2 =>
      have h1 : chars "dialogue_" ++ natChars j1 = chars "dialogue_" ++ natChars j2 := h
      rw [natChars_inj j1 j2 (List.append_cancel_left h1)]

/-- Injectivity of the full storage key over (page number, segment kind)
for a fixed book id. -/
lemma uploadKey_inj (bid : List Char) (p1 p2 : Nat) (s1 s2 : SegKind)
    (h : uploadKey bid p1 (segChars s1) = uploadKey bid p2 (segChars s2)) :
    p1 = p2 ∧ s1 = s2 := by
  have h0 : bid ++ (chars "/audio/page_" ++ (natChars p1 ++ (['_'] ++ (segChars s1 ++ chars ".mp3"))))
      = bid ++ (chars "/audio/page_" ++ (natChars p2 ++ (['_'] ++ (segChars s2 ++ chars ".mp3")))) := by
    simpa [uploadKey, List.append_assoc] using h
  have h1 := List.append_cancel_left h0
  have h2 := List.append_cancel_left h1
  rw [List.singleton_append, List.singleton_append] at h2
  have h3 : natChars p1 ++ ('_' :: (segChars s1 ++ chars ".mp3"))
      = natChars p2 ++ ('_' :: (segChars s2 ++ chars ".mp3")) := h2
  have hsplit := digits_split (natChars p1) ('_' :: (segChars s1 ++ chars ".mp3"))
    (natChars p2) ('_' :: (segChars s2 ++ chars ".mp3"))
    (natChars_digits p1) (natChars_digits p2)
    (by intro c hc; injection hc with hc; subst hc; rfl)
    (by intro c hc; injection hc with hc; subst hc; rfl)
    h3
  obtain ⟨hp, hs⟩ := hsplit
  injection hs with _ hs2
  have hseg : segChars s1 = segChars s2 := List.append_cancel_right hs2
  exact ⟨natChars_inj p1 p2 hp, segChars_inj s1 s2 hseg⟩

/-- C7. The storage key is a function of (bookId, page index, segment
kind, dialogue index) only, and for a fixed book id the key map is
injective over (page index, segment kind): two distinct segments of one
synthesis run never share a key. Consequently re-running the handler on
an identical request that carries its book id produces an identical
outcome (identical manifests with identical URLs, identical upload
keys), independently of the fresh uuid of the run. -/
theorem c7_keys_collision_free_idempotent :
    (∀ (bid : List Char) (p1 p2 : Nat) (s1 s2 : SegKind),
      uploadKey bid p1 (segChars s1) = uploadKey bid p2 (segChars s2) → p1 = p2 ∧ s1 = s2)
    ∧ (∀ (req : SynthRequest) (f1 f2 bucket region bid : List Char),
      req.bookIdField = some bid →
      handlerSynth req f1 bucket region = handlerSynth req f2 bucket region) := by
  constructor
  · exact uploadKey_inj
  · intro req f1 f2 bucket region bid hid
    simp [handlerSynth, hid]

/-- C7, witness: the key-equality hypothesis discharged at a concrete
coinciding pair, and run-independence at a concrete request carrying
its book id. -/
theorem c7_witness :
    ((1 : Nat) = 1 ∧ SegKind.dialogue 2 = SegKind.dialogue 2)
    ∧ handlerSynth ⟨[⟨chars "Hi", []⟩], some (chars "bookA")⟩ (chars "u1") (chars "bkt") (chars "rg")
        = handlerSynth ⟨[⟨chars "Hi", []⟩], some (chars "bookA")⟩ (chars "u2") (chars "bkt") (chars "rg") :=
  ⟨c7_keys_collision_free_idempotent.1 (chars "bookA") 1 1
      (SegKind.dialogue 2) (SegKind.dialogue 2) rfl,
   c7_keys_collision_free_idempotent.2 ⟨[⟨chars "Hi", []⟩], some (chars "bookA")⟩
      (chars "u1") (chars "u2") (chars "bkt") (chars "rg") (chars "bookA") rfl⟩

/-- Modelled from the spec (section 4.1): the voice-selection rule table
as the spec words it — case-insensitive substring match, child markers
first (child voice), then father/dad-type markers including the
language-specific equivalent (male voice), then mother/mom-type markers
including the language-specific equivalent (female voice), else the
default narrator voice.  Used as the comparand of the refinement claim
C8; the source definition is `determine_voice` above. -/
def selectVoiceSpec (character : List Char) : List Char :=
  let cl := character.map Char.toLower
  if isSubstr (chars "child") cl || isSubstr (chars "kid") cl
      || isSubstr (chars "boy") cl || isSubstr (chars "girl") cl then
    childVoice
  else if isSubstr (chars "father") cl || isSubstr (chars "dad") cl
      || isSubstr (chars "爸爸") character then
    maleVoice
  else if isSubstr (chars "mother") cl || isSubstr (chars "mom") cl
      || isSubstr (chars "妈妈") character then
    femaleVoice
  else
    narratorVoice

/-- C8. The voice selector is total and deterministic, agrees with the
fixed ordered rule table of the spec, ignores the emotion argument, and
maps any character text containing "girl" in any letter case to the
child voice. -/
theorem c8_voice_selector :
    (∀ c e, determine_voice c e = selectVoiceSpec c)
    ∧ (∀ c e1 e2, determine_voice c e1 = determine_voice c e2)
    ∧ (∀ c e l g r, c = l ++ g ++ r → g.map Char.toLower = chars "girl" →
        determine_voice c e = childVoice) := by
  refine ⟨fun c e => rfl, fun c e1 e2 => rfl, ?_⟩
  intro c e l g r hc hg
  subst hc
  have hgirl : isSubstr (chars "girl")
      (l.map Char.toLower ++ (g.map Char.toLower ++ r.map Char.toLower)) = true := by
    rw [hg, ← List.append_assoc]
    exact isSubstr_of_parts (l.map Char.toLower) (chars "girl") (r.map Char.toLower) (by decide)
  simp [determine_voice, hgirl]

/-- C8, witness: the girl rule fires on a mixed-case character text. -/
theorem c8_voice_selector_witness :
    determine_voice (chars "aGIrLb") (chars "happy") = childVoice :=
  c8_voice_selector.2.2 (chars "aGIrLb") (chars "happy")
    (chars "a") (chars "GIrL") (chars "b") rfl (by decide)

/-- C9. In every manifest produced by `synthesizeBook`: the manifest at
page index i is the processing of the page at index i; a page with empty
narrator text gets no narrator segment (the field is absent, not a null
placeholder); and the dialogue segments are exactly the non-empty-text
dialogue lines in source order — contiguously, with no gap for skipped
lines — each carrying the character, text and emotion copied from its
source line plus the upload URL derived from the source position of that
line. -/
theorem c9_manifest_shape (bucket region bid : List Char) (pages : List Page)
    (i : Nat) (page : Page) (hp : pages.get? i = some page) :
    (synthesizeBook bucket region bid pages).get? i
      = some (processPage bucket region bid i page)
    ∧ (page.narrator = [] → (processPage bucket region bid i page).narrator = none)
    ∧ (processPage bucket region bid i page).dialogues
        = ((page.dialogues.enum.filter (fun x => !x.2.text.isEmpty)).map
            (fun x =>
              { character := x.2.character
              , text := x.2.text
              , url := publicUrl bucket region (uploadKey bid i (segChars (SegKind.dialogue x.1)))
              , emotion := x.2.emotion })) := by
  refine ⟨?_, ?_, ?_⟩
  · unfold synthesizeBook
    rw [synthGo_get bucket region bid pages 0 i, hp]
    simp
  · intro hn
    simp [processPage, hn]
  · show dialogueSegs bucket region bid i 0 page.dialogues = _
    rw [dialogueSegs_enumFrom bucket region bid i page.dialogues 0]
    rfl

/-- C9, witness at a concrete one-page book whose page has an empty
narrator, one empty-text dialogue line (skipped, no gap) and one
non-empty dialogue line (kept, with the source position 1 in its upload
key). -/
theorem c9_manifest_shape_witness :
    (synthesizeBook (chars "bkt") (chars "rg") (chars "bookA")
        [⟨[], [⟨chars "Mom", [], chars "sad"⟩, ⟨chars "Boy", chars "Yo", chars "calm"⟩]⟩]).get? 0
      = some (processPage (chars "bkt") (chars "rg") (chars "bookA") 0
          ⟨[], [⟨chars "Mom", [], chars "sad"⟩, ⟨chars "Boy", chars "Yo", chars "calm"⟩]⟩)
    ∧ (processPage (chars "bkt") (chars "rg") (chars "bookA") 0
          ⟨[], [⟨chars "Mom", [], chars "sad"⟩, ⟨chars "Boy", chars "Yo", chars "calm"⟩]⟩).narrator
        = none
    ∧ (processPage (chars "bkt") (chars "rg") (chars "bookA") 0
          ⟨[], [⟨chars "Mom", [], chars "sad"⟩, ⟨chars "Boy", chars "Yo", chars "calm"⟩]⟩).dialogues
        = [ { character := chars "Boy"
            , text := chars "Yo"
            , url := publicUrl (chars "bkt") (chars "rg")
                (uploadKey (chars "bookA") 0 (segChars (SegKind.dialogue 1)))
            , emotion := chars "calm" } ] := by
  have h := c9_manifest_shape (chars "bkt") (chars "rg") (chars "bookA")
    [⟨[], [⟨chars "Mom", [], chars "sad"⟩, ⟨chars "Boy", chars "Yo", chars "calm"⟩]⟩] 0
    ⟨[], [⟨chars "Mom", [], chars "sad"⟩, ⟨chars "Boy", chars "Yo", chars "calm"⟩]⟩ rfl
  exact ⟨h.1, h.2.1 rfl, by rw [h.2.2]; rfl⟩

end PictureBook
